import Mathlib

/-!
Shallow embedding of the `perfdevs` simulation kernel (`perfdevs/sim.py`).

This file embeds the DEVS simulation kernel of `perfdevs/sim.py` in Lean 4 and
proves properties of the embedded operations.

## Modelling conventions

* **Time.** Python times are IEEE-754 doubles.  The kernel only ever adds,
  subtracts and compares times (`+`, `-`, `==`, `!=`, `<`, `<=`, `min`), so we
  model a time as an exact value drawn from `Int ∪ {-∞, +∞, NaN}` (`FTime`),
  with the IEEE comparison semantics: every comparison involving `NaN` is
  false, so `NaN != NaN` is true, and `∞ - ∞ = NaN`.  Exact integer arithmetic
  reproduces every control-flow decision of the Python kernel on these values.
* **Ports.** Python couplings and injection hold direct references to shared
  `Port` objects.  We model the ports of a simulation as a single arena
  (`Store`): a list of port records indexed by a port id (`Nat`); atomics,
  couplings and injection refer to ports by id.
* **Shared clock and shared ports.** The Python `SimulationClock` and the port
  objects are shared mutable state.  The embedding threads them explicitly:
  processor operations take the current clock value and the store and return
  the updated store; only the root driver operations update the clock.
* **External model layer.** `perfdevs/models.py` (the `Atomic`, `Coupled` and
  `Port` classes) is not part of the sources under verification; the spec
  (§6 "External interfaces") defines the interface the kernel consumes.  The
  structures `Behavior`, `Atomic`, `Coupled` and `PortSt` below model exactly
  that consumed interface and are marked `Modelled from the spec:` where the
  spec is the only authority.
-/

/-- A simulation time: an exact value from `Int ∪ \x7b-∞, +∞, NaN\x7d`, modelling
the IEEE-754 doubles that `perfdevs` uses for clock times, `sigma` and `e`. -/
inductive FTime where
  | nan : FTime
  | ninf : FTime
  | fin : Int → FTime
  | inf : FTime
deriving DecidableEq, Repr

/-- IEEE negation on `FTime`. -/
def FTime.neg : FTime → FTime
  | nan => nan
  | ninf => inf
  | inf => ninf
  | fin q => fin (-q)

/-- IEEE addition on `FTime`: `NaN` is absorbing and `∞ + (-∞) = NaN`. -/
def FTime.add : FTime → FTime → FTime
  | nan, _ => nan
  | _, nan => nan
  | inf, ninf => nan
  | ninf, inf => nan
  | inf, _ => inf
  | _, inf => inf
  | ninf, _ => ninf
  | _, ninf => ninf
  | fin a, fin b => fin (a + b)

/-- IEEE subtraction on `FTime` (`a - b = a + (-b)`, so `∞ - ∞ = NaN`). -/
def FTime.sub (a b : FTime) : FTime := a.add b.neg

/-- Python `==` on floats: `NaN` is not equal to anything, itself included. -/
def FTime.beq : FTime → FTime → Bool
  | fin a, fin b => a == b
  | inf, inf => true
  | ninf, ninf => true
  | _, _ => false

/-- Python `<` on floats: any comparison involving `NaN` is false. -/
def FTime.lt : FTime → FTime → Bool
  | nan, _ => false
  | _, nan => false
  | ninf, ninf => false
  | ninf, _ => true
  | _, ninf => false
  | fin a, fin b => a < b
  | fin _, inf => true
  | inf, _ => false

/-- Python `<=` on floats: any comparison involving `NaN` is false. -/
def FTime.le : FTime → FTime → Bool
  | nan, _ => false
  | _, nan => false
  | ninf, _ => true
  | fin _, ninf => false
  | inf, ninf => false
  | fin a, fin b => a ≤ b
  | fin _, inf => true
  | inf, fin _ => false
  | inf, inf => true

/-- Test for the float `NaN`. -/
def FTime.isNan : FTime → Bool
  | nan => true
  | _ => false

/-- Modelled from the spec: the sentinel `INFINITY` imported by `sim.py` from
the package root (`perfdevs/__init__.py` is not under `src/`).  §6: "a numeric
value representing 'no further events'; comparisons with ordinary times must
yield the usual total order" — the IEEE positive infinity. -/
def INFINITY : FTime := FTime.inf

/-- Python's builtin `min(iterable, default=d)` on floats: returns `d` on an
empty iterable, otherwise folds keeping the current best and replacing it
whenever a later item is strictly smaller (`item < best`). -/
def pymin (l : List FTime) (d : FTime) : FTime :=
  match l with
  | [] => d
  | x :: xs => xs.foldl (fun b a => if FTime.lt a b then a else b) x

/-- Modelled from the spec: the direction flag of a `Port`
(§6: "direction ∈ \x7bIN, OUT\x7d"). -/
inductive PortDirection where
  | pIn : PortDirection
  | pOut : PortDirection
deriving DecidableEq, Repr

/-- Modelled from the spec: the kernel-visible state of a `Port`
(§6: "`values` (ordered buffer), `clear()`, `extend(values)` (append)",
plus the `direction` flag that `Coordinator.__init__` writes in chain mode). -/
structure PortSt (V : Type) where
  values : List V
  direction : PortDirection
deriving DecidableEq, Repr

/-- The arena of all ports of a simulation, indexed by port id.  Models the
heap of Python `Port` objects that processors and couplings share. -/
def Store (V : Type) := List (PortSt V)

instance (V : Type) [DecidableEq V] : DecidableEq (Store V) :=
  inferInstanceAs (DecidableEq (List (PortSt V)))

/-- Read a port from the store (a dangling id reads as an empty IN port;
in the Python heap every held reference is valid, so theorems about a
concrete store keep ids in range). -/
def getPort (st : Store V) (i : Nat) : PortSt V :=
  match st, i with
  | [], _ => { values := [], direction := PortDirection.pIn }
  | p :: _, 0 => p
  | _ :: ps, Nat.succ n => getPort ps n

/-- Update one port of the store in place (no-op on a dangling id). -/
def updatePort (st : Store V) (i : Nat) (f : PortSt V → PortSt V) : Store V :=
  match st, i with
  | [], _ => []
  | p :: ps, 0 => f p :: ps
  | p :: ps, Nat.succ n => p :: updatePort ps n f

/-- Python `port.extend(vs)`: append `vs` to the port's buffer. -/
def extendValues (st : Store V) (i : Nat) (vs : List V) : Store V :=
  updatePort st i (fun p => { p with values := p.values ++ vs })

/-- Python `port.clear()`: empty the port's buffer. -/
def clearValues (st : Store V) (i : Nat) : Store V :=
  updatePort st i (fun p => { p with values := [] })

/-- Clear a list of ports in order. -/
def clearPorts (st : Store V) (ps : List Nat) : Store V :=
  ps.foldl (fun s p => clearValues s p) st

/-- Modelled from the spec: the behavioural interface of an `Atomic` model
(§6).  The kernel invokes `deltint()`, `deltext(e)`, `deltcon(e)` and
`lambdaf()` and reads/writes the model's `sigma`; `ta` is derived from
`sigma` (glossary: "`ta` is derived from `sigma`").  A transition maps the
model's abstract state and its current `sigma` (together with, for the
external/confluent cases, the elapsed time `e` and the buffers of the
model's input ports) to a new state and a new `sigma`; `lambdaf` returns the
values the model places on each of its output ports, positionally. -/
structure Behavior (S V : Type) where
  deltint : S → FTime → S × FTime
  deltext : FTime → List (List V) → S → FTime → S × FTime
  deltcon : FTime → List (List V) → S → FTime → S × FTime
  lambdaf : S → FTime → List (List V)

/-- The kernel-visible state of an `Atomic` model instance: an abstract
behavioural state `s`, the mutable `sigma` (which the kernel decrements in
`Simulator.deltfcn`), and the ids of its input and output ports. -/
structure Atomic (S : Type) where
  s : S
  sigma : FTime
  inPorts : List Nat
  outPorts : List Nat
deriving DecidableEq

/-- Modelled from the spec: `Atomic.in_empty()` (§4.1: "Let `in_empty` =
(all input ports empty)"). -/
def inEmpty (st : Store V) (m : Atomic S) : Bool :=
  m.inPorts.all (fun p => (getPort st p).values.isEmpty)

/-- The buffers of the model's input ports, in port order (what
`deltext`/`deltcon` can read). -/
def inputBuffers (st : Store V) (m : Atomic S) : List (List V) :=
  m.inPorts.map (fun p => (getPort st p).values)

/-- Embedding of `Simulator` (sim.py:52-102): the processor wrapping an atomic model;
holds `time_last`, `time_next` and the model.  The shared clock is passed
to each operation explicitly. -/
structure Simulator (S : Type) where
  model : Atomic S
  timeLast : FTime
  timeNext : FTime
deriving DecidableEq

/-- The common tail of every non-no-op branch of `Simulator.deltfcn`
(sim.py:87-88): install the transition's result `(s, sigma)`, then set
`time_last = t` and `time_next = time_last + model.ta` (where `model.ta`
reads the post-transition `sigma`). -/
def afterTransition (t : FTime) (sim : Simulator S) (r : S × FTime) : Simulator S :=
  { model := { sim.model with s := r.1, sigma := r.2 },
    timeLast := t,
    timeNext := FTime.add t r.2 }

/-- Embedding of `Simulator.deltfcn` (sim.py:69-90): the three-way DEVS transition rule at
the current clock time. -/
def Simulator.deltfcn (beh : Behavior S V) (clock : FTime) (st : Store V)
    (sim : Simulator S) : Simulator S :=
  let t := clock
  if inEmpty st sim.model then
    if FTime.beq t sim.timeNext then
      afterTransition t sim (beh.deltint sim.model.s sim.model.sigma)
    else
      sim
  else
    let e := FTime.sub t sim.timeLast
    let sigma1 := FTime.sub sim.model.sigma e
    let bufs := inputBuffers st sim.model
    if FTime.beq t sim.timeNext then
      afterTransition t sim (beh.deltcon e bufs sim.model.s sigma1)
    else
      afterTransition t sim (beh.deltext e bufs sim.model.s sigma1)

/-- Append produced value lists to the corresponding output ports,
positionally (how `model.lambdaf()` places outputs on its output ports). -/
def writeOutputs : Store V → List Nat → List (List V) → Store V
  | st, p :: ps, vs :: vss => writeOutputs (extendValues st p vs) ps vss
  | st, _, _ => st

/-- Embedding of `Simulator.lambdaf` (sim.py:92-95): when the clock has reached
`time_next`, the model places its outputs on its output ports. -/
def Simulator.lambdaf (beh : Behavior S V) (clock : FTime) (st : Store V)
    (sim : Simulator S) : Store V :=
  if FTime.beq clock sim.timeNext then
    writeOutputs st sim.model.outPorts (beh.lambdaf sim.model.s sim.model.sigma)
  else
    st

/-- Embedding of `Simulator.clear` (sim.py:97-102): clear the model's input ports, then
its output ports. -/
def Simulator.clear (st : Store V) (sim : Simulator S) : Store V :=
  clearPorts (clearPorts st sim.model.inPorts) sim.model.outPorts

/-- A directed coupling between two ports (spec §3 "Coupling"): `propagate()`
copies every value from the source port onto the destination port, appending
and preserving order. -/
structure Coupling where
  src : Nat
  dst : Nat
deriving DecidableEq, Repr

/-- Modelled from the spec: the kernel-visible interface of a `Coupled` model
(§6): its own input/output ports, the three coupling maps `eic`, `ic`, `eoc`
(flattened to lists in dict-iteration order) and the `chain` flag.  The
`components` list is consumed only by `_build_hierarchy`, which is not needed
by the verified operations; the child processors appear directly in the
processor tree below. -/
structure Coupled where
  inPorts : List Nat
  outPorts : List Nat
  eic : List Coupling
  ic : List Coupling
  eoc : List Coupling
  chain : Bool
deriving DecidableEq

/-- Embedding of `Coupling.propagate` (spec §3): append the source port's buffer to the
destination port's buffer. -/
def propagateCoup (st : Store V) (c : Coupling) : Store V :=
  extendValues st c.dst (getPort st c.src).values

/-- Apply a list of couplings in order. -/
def propagateList (st : Store V) (cs : List Coupling) : Store V :=
  cs.foldl propagateCoup st

/-- Embedding of `Coordinator.propagate_output` (sim.py:175-183): unless the model is in
chain mode, apply every IC coupling, then every EOC coupling. -/
def propagateOutput (st : Store V) (m : Coupled) : Store V :=
  if m.chain then st else propagateList (propagateList st m.ic) m.eoc

/-- Embedding of `Coordinator.propagate_input` (sim.py:194-198): unless the model is in
chain mode, apply every EIC coupling. -/
def propagateInput (st : Store V) (m : Coupled) : Store V :=
  if m.chain then st else propagateList st m.eic

/-- The per-node state of a (non-root) `Coordinator`: its coupled model, its
`time_last`/`time_next` and its aggregated `ports_to_serve` map (names to
port ids; a Python dict modelled as an association list with unique keys). -/
structure CoordSt where
  model : Coupled
  timeLast : FTime
  timeNext : FTime
  portsToServe : List (String × Nat)
deriving DecidableEq

mutual
/-- A processor of the hierarchy (spec §9: "a tagged variant
`Processor = Simulator | Coordinator`"): either an atomic's `Simulator` or a
child `Coordinator` with its own children. -/
inductive Proc (S : Type) : Type where
  | sim : Simulator S → Proc S
  | coord : CoordSt → ProcList S → Proc S

/-- The ordered children of a coordinator (`self.coordinators` followed by
`self.simulators` in the source both live in one ordered list here; the
`processors` property iterates coordinators first, then simulators). -/
inductive ProcList (S : Type) : Type where
  | nil : ProcList S
  | cons : Proc S → ProcList S → ProcList S
end

/-- A processor's `time_next`. -/
def Proc.timeNext : Proc S → FTime
  | .sim sm => sm.timeNext
  | .coord cs _ => cs.timeNext

/-- A processor's `time_last`. -/
def Proc.timeLast : Proc S → FTime
  | .sim sm => sm.timeLast
  | .coord cs _ => cs.timeLast

/-- The `time_next` values of a processor list, in order (the list
comprehension of `Coordinator.ta`). -/
def ProcList.timeNexts : ProcList S → List FTime
  | .nil => []
  | .cons p ps => p.timeNext :: ps.timeNexts

/-- Embedding of `Coordinator.ta` (sim.py:166-167):
`min([proc.time_next for proc in self.processors], default=0) - self.clock.time`. -/
def coordinatorTa (clock : FTime) (children : ProcList S) : FTime :=
  FTime.sub (pymin children.timeNexts (FTime.fin 0)) clock

mutual
/-- The `lambdaf` of one processor: a simulator's `lambdaf`, or a coordinator's
(children first, then `propagate_output`, sim.py:169-173).  Only the port
store changes. -/
def Proc.lambdaf (beh : Behavior S V) (clock : FTime) (st : Store V) :
    Proc S → Store V
  | .sim sm => Simulator.lambdaf beh clock st sm
  | .coord cs ch => propagateOutput (ProcList.lambdaf beh clock st ch) cs.model

/-- The `lambdaf` over a child list, threading the store left to right. -/
def ProcList.lambdaf (beh : Behavior S V) (clock : FTime) (st : Store V) :
    ProcList S → Store V
  | .nil => st
  | .cons p ps => ProcList.lambdaf beh clock (Proc.lambdaf beh clock st p) ps
end

mutual
/-- The `deltfcn` of one processor: a simulator's `deltfcn`, or a coordinator's
(`propagate_input`, children's `deltfcn`, then `time_last = clock.time` and
`time_next = time_last + ta()`, sim.py:185-192). -/
def Proc.deltfcn (beh : Behavior S V) (clock : FTime) (st : Store V) :
    Proc S → Store V × Proc S
  | .sim sm => (st, .sim (Simulator.deltfcn beh clock st sm))
  | .coord cs ch =>
      let st1 := propagateInput st cs.model
      let r := ProcList.deltfcn beh clock st1 ch
      (r.1, .coord { cs with timeLast := clock,
                             timeNext := FTime.add clock (coordinatorTa clock r.2) } r.2)

/-- The `deltfcn` over a child list, threading the store left to right. -/
def ProcList.deltfcn (beh : Behavior S V) (clock : FTime) (st : Store V) :
    ProcList S → Store V × ProcList S
  | .nil => (st, .nil)
  | .cons p ps =>
      let r := Proc.deltfcn beh clock st p
      let rs := ProcList.deltfcn beh clock r.1 ps
      (rs.1, .cons r.2 rs.2)
end

mutual
/-- The `clear` of one processor: a simulator's `clear`, or a coordinator's
(children first, then its own input and output ports, sim.py:200-208). -/
def Proc.clear (st : Store V) : Proc S → Store V
  | .sim sm => Simulator.clear st sm
  | .coord cs ch =>
      clearPorts (clearPorts (ProcList.clear st ch) cs.model.inPorts) cs.model.outPorts

/-- The `clear` over a child list, threading the store left to right. -/
def ProcList.clear (st : Store V) : ProcList S → Store V
  | .nil => st
  | .cons p ps => ProcList.clear (Proc.clear st p) ps
end

/-- The root `Coordinator` together with the shared mutable state it owns:
the shared clock (`self.clock.time`), the port arena, its coupled model, its
times, its `ports_to_serve` map and its child processors. -/
structure RootCoordinator (S V : Type) where
  clock : FTime
  store : Store V
  model : Coupled
  timeLast : FTime
  timeNext : FTime
  portsToServe : List (String × Nat)
  children : ProcList S

/-- Embedding of `Coordinator.lambdaf` (sim.py:169-173) at the root: children's `lambdaf`,
then `propagate_output`. -/
def RootCoordinator.lambdaf (beh : Behavior S V) (r : RootCoordinator S V) :
    RootCoordinator S V :=
  { r with store := propagateOutput (ProcList.lambdaf beh r.clock r.store r.children) r.model }

/-- Embedding of `Coordinator.deltfcn` (sim.py:185-192) at the root: `propagate_input`,
children's `deltfcn`, then `time_last = clock.time`,
`time_next = time_last + ta()`. -/
def RootCoordinator.deltfcn (beh : Behavior S V) (r : RootCoordinator S V) :
    RootCoordinator S V :=
  let st1 := propagateInput r.store r.model
  let d := ProcList.deltfcn beh r.clock st1 r.children
  { r with store := d.1, children := d.2,
           timeLast := r.clock,
           timeNext := FTime.add r.clock (coordinatorTa r.clock d.2) }

/-- Embedding of `Coordinator.clear` (sim.py:200-208) at the root: children's `clear`,
then the root model's input and output ports. -/
def RootCoordinator.clear (r : RootCoordinator S V) : RootCoordinator S V :=
  let st1 := clearPorts (clearPorts (ProcList.clear r.store r.children) r.model.inPorts)
    r.model.outPorts
  { r with store := st1 }

/-- One body of the driver loop (sim.py:243-246): `lambdaf`; `deltfcn`;
`clear`; `clock.time = time_next`. -/
def RootCoordinator.stepCycle (beh : Behavior S V) (r : RootCoordinator S V) :
    RootCoordinator S V :=
  let r1 := RootCoordinator.clear (RootCoordinator.deltfcn beh (RootCoordinator.lambdaf beh r))
  { r1 with clock := r1.timeNext }

/-- The `while cont < num_iters and self.clock.time < INFINITY` loop of
`Coordinator.simulate` (sim.py:241-247). -/
def simulateAux (beh : Behavior S V) : Nat → RootCoordinator S V → RootCoordinator S V
  | 0, r => r
  | Nat.succ n, r =>
      if FTime.lt r.clock INFINITY then simulateAux beh n (RootCoordinator.stepCycle beh r)
      else r

/-- Embedding of `Coordinator.simulate` (sim.py:237-247): set `clock.time = time_next`,
then run up to `num_iters` cycles while `clock.time < INFINITY`. -/
def RootCoordinator.simulate (beh : Behavior S V) (r : RootCoordinator S V)
    (numIters : Nat) : RootCoordinator S V :=
  simulateAux beh numIters { r with clock := r.timeNext }

/-- Lookup of a port name in the `ports_to_serve` dict (`port in
self.ports_to_serve` followed by `self.ports_to_serve[port]`). -/
def findPort : List (String × Nat) → String → Option Nat
  | [], _ => none
  | (n, p) :: rest, name => if n = name then some p else findPort rest name

/-- The argument `port` of `Coordinator.inject`: either a registered port
name (the remote/XML-RPC form) or a direct reference to a `Port` object
(modelled by its port id). -/
inductive InjectPort where
  | byName : String → InjectPort
  | byRef : Nat → InjectPort

/-- Embedding of `Coordinator.inject(port, values, e=0)` (sim.py:210-235) at the root.

`deser` models the opaque deserializer applied to each value of a
string-keyed injection (`pickle.loads(x.encode())`, spec §4.3 "an opaque
deserializer provided by the environment").  Values are passed as a list
(the source wraps a scalar into a one-element list first).  Returns the
updated root and the Python return value:

* compute `time = time_last + e`;
* a string port is resolved through `ports_to_serve`; when unknown, log and
  return `True` with nothing mutated;
* when `time <= time_next` or `time` is NaN: append the values to the
  resolved port, set `clock.time = time`, run one micro-cycle
  (`lambdaf`; `deltfcn`; `clear`), set `clock.time = time_next`
  (the `time_next` recomputed by `deltfcn`), and return `True`;
* otherwise log and return `False` with nothing mutated. -/
def RootCoordinator.inject (beh : Behavior S V) (deser : V → V)
    (r : RootCoordinator S V) (port : InjectPort) (values : List V)
    (e : FTime) : RootCoordinator S V × Bool :=
  let time := FTime.add r.timeLast e
  let resolved : Option (Nat × List V) :=
    match port with
    | .byRef p => some (p, values)
    | .byName name =>
        let decoded := values.map deser
        match findPort r.portsToServe name with
        | some p => some (p, decoded)
        | none => none
  match resolved with
  | none => (r, true)
  | some (p, vals) =>
      if FTime.le time r.timeNext || !(FTime.beq time time) then
        let r1 := { r with store := extendValues r.store p vals, clock := time }
        let r2 := RootCoordinator.clear (RootCoordinator.deltfcn beh (RootCoordinator.lambdaf beh r1))
        ({ r2 with clock := r2.timeNext }, true)
      else
        (r, false)

/-- Set the direction of every listed port to OUT, in order (the loop
`for port in self.model.in_ports: port.direction = Port.OUT`,
sim.py:117-118). -/
def setDirectionsOut (st : Store V) (ps : List Nat) : Store V :=
  ps.foldl (fun s p => updatePort s p (fun q => { q with direction := PortDirection.pOut })) st

/-- Modelled from the spec: `Coupled.to_chain()` (models.py is not under
`src/`).  The spec says `to_chain()` "produces a linearized pipeline" and
that `chain: bool` indicates "linearized mode" (§3, §6, §9 glossary); the
kernel reads only the `chain` flag, the port lists and the coupling maps of
the transformed model.  The internal linearization of components is not
kernel-visible for the verified operations, so it is kept abstract via the
`rewire` parameter of `coordinatorInit`; what `to_chain` must guarantee is
that the resulting model carries `chain = true`. -/
def toChainSpec (rewire : Coupled → Coupled) (m : Coupled) : Coupled :=
  { rewire m with chain := true }

/-- Embedding of `Coordinator.__init__` (sim.py:106-119) without the hierarchy build
(which happens later, in `initialize`): `time_last = time_next = 0`
(from `AbstractSimulator.__init__`), apply `flatten()` when `flatten`,
apply `to_chain()` when `chain` and then set the direction of every input
port of the (transformed) root model to OUT; `ports_to_serve` starts empty.
`flattenImpl` and `rewire` model the externally defined structural
transforms of `models.py`. -/
def coordinatorInit (flattenImpl : Coupled → Coupled) (rewire : Coupled → Coupled)
    (m : Coupled) (flatten chain : Bool) (clock : FTime) (st : Store V) :
    RootCoordinator S V :=
  let m1 := if flatten then flattenImpl m else m
  let m2 := if chain then toChainSpec rewire m1 else m1
  let st2 := if chain then setDirectionsOut st m2.inPorts else st
  { clock := clock, store := st2, model := m2,
    timeLast := FTime.fin 0, timeNext := FTime.fin 0,
    portsToServe := [], children := ProcList.nil }

/-- Apply `deltfcn` only to the child coordinators, leaving the child
simulators untouched (the inline `for coord in self.coordinators:
coord.deltfcn()` loop of `ParallelCoordinator.deltfcn`, sim.py:297-298). -/
def ProcList.deltfcnCoordsOnly (beh : Behavior S V) (clock : FTime) (st : Store V) :
    ProcList S → Store V × ProcList S
  | .nil => (st, .nil)
  | .cons p ps =>
      match p with
      | .sim sm =>
          let rs := ProcList.deltfcnCoordsOnly beh clock st ps
          (rs.1, .cons (.sim sm) rs.2)
      | .coord cs ch =>
          let r := Proc.deltfcn beh clock st (.coord cs ch)
          let rs := ProcList.deltfcnCoordsOnly beh clock r.1 ps
          (rs.1, .cons r.2 rs.2)

/-- Apply `deltfcn` only to the child simulators, leaving the child
coordinators untouched (the submitted `sim.deltfcn` tasks of
`ParallelCoordinator.deltfcn`, sim.py:300-301, when they eventually run on
the pool). -/
def ProcList.deltfcnSimsOnly (beh : Behavior S V) (clock : FTime) (st : Store V) :
    ProcList S → Store V × ProcList S
  | .nil => (st, .nil)
  | .cons p ps =>
      match p with
      | .sim sm =>
          let r := Proc.deltfcn beh clock st (.sim sm)
          let rs := ProcList.deltfcnSimsOnly beh clock r.1 ps
          (rs.1, .cons r.2 rs.2)
      | .coord cs ch =>
          let rs := ProcList.deltfcnSimsOnly beh clock st ps
          (rs.1, .cons (.coord cs ch) rs.2)

/-- Embedding of `ParallelCoordinator.deltfcn` (sim.py:294-307) under a legal thread-pool
schedule.  The source submits each child simulator's `deltfcn` to the
executor but collects no futures: `ex_futures` is initialized to `[]` and
never appended to, so `futures.as_completed(ex_futures)` waits on nothing
and the method proceeds directly to recompute `time_last` and
`time_next = time_last + self.ta()`.  The thread pool may therefore run the
submitted tasks at any later point; this function realizes the legal
schedule in which every submitted `sim.deltfcn` runs only after the times
are recomputed, so `ta()` reads the child simulators' stale `time_next`
values. -/
def RootCoordinator.parallelDeltfcnDeferred (beh : Behavior S V)
    (r : RootCoordinator S V) : RootCoordinator S V :=
  let st1 := propagateInput r.store r.model
  let d1 := ProcList.deltfcnCoordsOnly beh r.clock st1 r.children
  let tl := r.clock
  let tn := FTime.add tl (coordinatorTa r.clock d1.2)
  let d2 := ProcList.deltfcnSimsOnly beh r.clock d1.1 d1.2
  { r with store := d2.1, children := d2.2, timeLast := tl, timeNext := tn }

/-- The outcome of a Python constructor call: either an object or a raised
`TypeError`. -/
inductive InitOutcome where
  | ok : InitOutcome
  | typeError : InitOutcome
deriving DecidableEq, Repr

/-- The Python positional-call protocol for `Coordinator.__init__`
(sim.py:106-107): besides `self`, the signature
`(model, clock=None, flatten=False, chain=False)` binds at most **4**
positional arguments; a call that passes more raises `TypeError`. -/
def coordinatorInitCall (numPosArgs : Nat) : InitOutcome :=
  if numPosArgs ≤ 4 then .ok else .typeError

/-- Embedding of `ParallelProcessCoordinator.__init__` (sim.py:325-328): whatever its own
arguments are, it invokes
`super().__init__(model, clock, flatten, chain, unroll)` — **5** positional
arguments forwarded to `Coordinator.__init__`. -/
def parallelProcessCoordinatorInit (m : Coupled) (clock : Option FTime)
    (flatten chain unroll master : Bool) : InitOutcome :=
  coordinatorInitCall 5

/-- The `time_next` values of a processor's children (empty for a
simulator). -/
def Proc.childTimeNexts : Proc S → List FTime
  | .sim _ => []
  | .coord _ ch => ch.timeNexts

/-- A passive atomic behaviour: every transition keeps the state and the
`sigma` the kernel hands it (for `deltext`/`deltcon` that is the already
decremented `sigma`), and `lambdaf` emits nothing. -/
def passiveBeh : Behavior Unit Nat :=
  { deltint := fun s sg => (s, sg),
    deltext := fun _ _ s sg => (s, sg),
    deltcon := fun _ _ s sg => (s, sg),
    lambdaf := fun _ _ => [] }

/-- An atomic behaviour whose internal transition re-arms the model with
`sigma = 1` (a periodic generator); other transitions are passive. -/
def periodicBeh : Behavior Unit Nat :=
  { deltint := fun s _ => (s, FTime.fin 1),
    deltext := fun _ _ s sg => (s, sg),
    deltcon := fun _ _ s sg => (s, sg),
    lambdaf := fun _ _ => [] }

/-- A coupled model with no ports and no couplings (chain mode off). -/
def trivialCoupled : Coupled :=
  { inPorts := [], outPorts := [], eic := [], ic := [], eoc := [], chain := false }

/-- Example root for the injection-bounds scenario: one atomic child with
`sigma = 5`, input port `0`, output port `1`; `time_last = 0`,
`time_next = 5`, clock at `0`. -/
def injRootA : RootCoordinator Unit Nat :=
  { clock := FTime.fin 0,
    store := [{ values := [], direction := PortDirection.pIn },
              { values := [], direction := PortDirection.pOut }],
    model := trivialCoupled,
    timeLast := FTime.fin 0, timeNext := FTime.fin 5,
    portsToServe := [],
    children := ProcList.cons
      (Proc.sim { model := { s := (), sigma := FTime.fin 5, inPorts := [0], outPorts := [1] },
                  timeLast := FTime.fin 0, timeNext := FTime.fin 5 })
      ProcList.nil }

/-- Example root for the rejected injection: `time_last = 0`,
`time_next = 5`, clock already advanced to `5`. -/
def injRootB : RootCoordinator Unit Nat :=
  { injRootA with clock := FTime.fin 5 }

/-- Example simulator satisfying `time_next = time_last + sigma`
(`1 + 2 = 3`). -/
def invSim : Simulator Unit :=
  { model := { s := (), sigma := FTime.fin 2, inPorts := [], outPorts := [] },
    timeLast := FTime.fin 1, timeNext := FTime.fin 3 }

/-- Example root with one imminent atomic child (`sigma = 1`, clock at its
`time_next = 1`). -/
def tickRoot : RootCoordinator Unit Nat :=
  { clock := FTime.fin 1, store := [],
    model := trivialCoupled,
    timeLast := FTime.fin 0, timeNext := FTime.fin 1,
    portsToServe := [],
    children := ProcList.cons
      (Proc.sim { model := { s := (), sigma := FTime.fin 1, inPorts := [], outPorts := [] },
                  timeLast := FTime.fin 0, timeNext := FTime.fin 1 })
      ProcList.nil }

/-- A second copy of the imminent-child root, for the thread-parallel
comparison. -/
def tickRootPar : RootCoordinator Unit Nat :=
  tickRoot

/-- Two example simulator children with `time_next` values `[4, 2]`. -/
def twoKids : ProcList Unit :=
  ProcList.cons
    (Proc.sim { model := { s := (), sigma := FTime.fin 1, inPorts := [], outPorts := [] },
                timeLast := FTime.fin 0, timeNext := FTime.fin 4 })
    (ProcList.cons
      (Proc.sim { model := { s := (), sigma := FTime.fin 1, inPorts := [], outPorts := [] },
                  timeLast := FTime.fin 0, timeNext := FTime.fin 2 })
      ProcList.nil)

/-- Example root used for unknown-name injection: empty `ports_to_serve`. -/
def serveRoot : RootCoordinator Unit Nat :=
  { clock := FTime.fin 0, store := [{ values := [], direction := PortDirection.pIn }],
    model := trivialCoupled,
    timeLast := FTime.fin 0, timeNext := FTime.fin 2,
    portsToServe := [],
    children := ProcList.nil }

/-- Example root for default-offset injection: `time_last = 2 ≤ 4 =
time_next`, one atomic child with input port `0`. -/
def defaultInjRoot : RootCoordinator Unit Nat :=
  { clock := FTime.fin 2,
    store := [{ values := [], direction := PortDirection.pIn }],
    model := trivialCoupled,
    timeLast := FTime.fin 2, timeNext := FTime.fin 4,
    portsToServe := [],
    children := ProcList.cons
      (Proc.sim { model := { s := (), sigma := FTime.fin 2, inPorts := [0], outPorts := [] },
                  timeLast := FTime.fin 2, timeNext := FTime.fin 4 })
      ProcList.nil }

/-- A coupled model with two input ports and one coupling of each kind, used
to exercise chain-mode construction. -/
def chainCoupled : Coupled :=
  { inPorts := [0, 1], outPorts := [2],
    eic := [{ src := 0, dst := 3 }],
    ic := [{ src := 4, dst := 3 }],
    eoc := [{ src := 4, dst := 2 }],
    chain := false }

/-- A five-port store, all ports IN, for the chain-mode example. -/
def chainStore : Store Nat :=
  [{ values := [], direction := PortDirection.pIn },
   { values := [], direction := PortDirection.pIn },
   { values := [], direction := PortDirection.pIn },
   { values := [], direction := PortDirection.pIn },
   { values := [7], direction := PortDirection.pIn }]

/-! Helper lemmas -/

theorem FTime.le_of_lt' {a b : FTime} (h : FTime.lt a b = true) : FTime.le a b = true := by
  cases a <;> cases b <;> simp_all [FTime.lt, FTime.le] <;> omega

theorem FTime.le_rfl' {a : FTime} (h : a.isNan = false) : FTime.le a a = true := by
  cases a <;> simp_all [FTime.isNan, FTime.le]

theorem FTime.le_of_not_lt {a b : FTime} (ha : a.isNan = false) (hb : b.isNan = false)
    (h : FTime.lt a b = false) : FTime.le b a = true := by
  cases a <;> cases b <;> simp_all [FTime.isNan, FTime.lt, FTime.le] <;> omega

theorem FTime.le_trans' {a b c : FTime} (h1 : FTime.le a b = true)
    (h2 : FTime.le b c = true) : FTime.le a c = true := by
  cases a <;> cases b <;> cases c <;> simp_all [FTime.le] <;> omega

theorem FTime.not_nan_of_le_left {a b : FTime} (h : FTime.le a b = true) :
    a.isNan = false := by
  cases a <;> simp_all [FTime.le, FTime.isNan]

theorem FTime.add_fin_zero {a : FTime} (h : a.isNan = false) :
    FTime.add a (FTime.fin 0) = a := by
  cases a <;> simp_all [FTime.isNan, FTime.add]

theorem FTime.add_sub_cancel' {q : Int} {m : FTime} (h : m.isNan = false) :
    FTime.add (FTime.fin q) (FTime.sub m (FTime.fin q)) = m := by
  cases m <;> simp_all [FTime.isNan, FTime.sub, FTime.neg, FTime.add] <;> omega

theorem pyminFold_mem (xs : List FTime) (b : FTime) :
    xs.foldl (fun b a => if FTime.lt a b then a else b) b = b ∨
      xs.foldl (fun b a => if FTime.lt a b then a else b) b ∈ xs := by
  induction xs generalizing b with
  | nil => exact Or.inl rfl
  | cons x xs ih =>
      simp only [List.foldl]
      rcases ih (if FTime.lt x b then x else b) with h | h
      · rw [h]
        by_cases hx : FTime.lt x b = true
        · simp [hx]
        · simp only [Bool.not_eq_true] at hx
          simp [hx]
      · exact Or.inr (List.mem_cons_of_mem x h)

theorem pyminFold_le (xs : List FTime) (b : FTime) (hb : b.isNan = false)
    (hxs : ∀ x ∈ xs, FTime.isNan x = false) :
    FTime.le (xs.foldl (fun b a => if FTime.lt a b then a else b) b) b = true ∧
      ∀ x ∈ xs, FTime.le (xs.foldl (fun b a => if FTime.lt a b then a else b) b) x = true := by
  induction xs generalizing b with
  | nil => exact ⟨FTime.le_rfl' hb, by intro x hx; cases hx⟩
  | cons x xs ih =>
      have hxnan : FTime.isNan x = false := hxs x (List.mem_cons_self x xs)
      have hbnan' : FTime.isNan (if FTime.lt x b then x else b) = false := by
        by_cases hx : FTime.lt x b = true
        · simp [hx, hxnan]
        · simp only [Bool.not_eq_true] at hx
          simp [hx, hb]
      have ihr := ih (if FTime.lt x b then x else b) hbnan'
        (fun y hy => hxs y (List.mem_cons_of_mem x hy))
      have hstep_b : FTime.le (if FTime.lt x b then x else b) b = true := by
        by_cases hx : FTime.lt x b = true
        · simp only [hx, if_pos rfl]
          simpa [hx] using FTime.le_of_lt' hx
        · simp only [Bool.not_eq_true] at hx
          simp [hx, FTime.le_rfl' hb]
      have hstep_x : FTime.le (if FTime.lt x b then x else b) x = true := by
        by_cases hx : FTime.lt x b = true
        · simp [hx, FTime.le_rfl' hxnan]
        · simp only [Bool.not_eq_true] at hx
          simp [hx, FTime.le_of_not_lt hxnan hb hx]
      refine ⟨?_, ?_⟩
      · exact FTime.le_trans' ihr.1 hstep_b
      · intro y hy
        rcases List.mem_cons.mp hy with rfl | hy'
        · exact FTime.le_trans' ihr.1 hstep_x
        · exact ihr.2 y hy'

theorem pymin_mem {l : List FTime} (h : l ≠ []) (d : FTime) : pymin l d ∈ l := by
  cases l with
  | nil => exact absurd rfl h
  | cons x xs =>
      simp only [pymin]
      rcases pyminFold_mem xs x with h1 | h1
      · rw [h1]; exact List.mem_cons_self x xs
      · exact List.mem_cons_of_mem x h1

theorem pymin_le {l : List FTime} (h : l ≠ []) (hn : ∀ x ∈ l, FTime.isNan x = false)
    (d : FTime) : ∀ x ∈ l, FTime.le (pymin l d) x = true := by
  cases l with
  | nil => exact absurd rfl h
  | cons x xs =>
      simp only [pymin]
      have hr := pyminFold_le xs x (hn x (List.mem_cons_self x xs))
        (fun y hy => hn y (List.mem_cons_of_mem x hy))
      intro y hy
      rcases List.mem_cons.mp hy with rfl | hy'
      · exact hr.1
      · exact hr.2 y hy'

theorem pymin_not_nan {l : List FTime} (h : l ≠ []) (hn : ∀ x ∈ l, FTime.isNan x = false)
    (d : FTime) : FTime.isNan (pymin l d) = false :=
  hn _ (pymin_mem h d)

theorem updatePort_length (st : Store V) (i : Nat) (f : PortSt V → PortSt V) :
    (updatePort st i f).length = st.length := by
  induction st generalizing i with
  | nil => rfl
  | cons p ps ih =>
      cases i with
      | zero => rfl
      | succ n => simpa [updatePort] using ih n

theorem getPort_updatePort_self (st : Store V) (i : Nat) (f : PortSt V → PortSt V)
    (h : i < st.length) : getPort (updatePort st i f) i = f (getPort st i) := by
  induction st generalizing i with
  | nil => cases h
  | cons p ps ih =>
      cases i with
      | zero => rfl
      | succ n => exact ih n (Nat.lt_of_succ_lt_succ h)

theorem getPort_updatePort_ne (st : Store V) (i j : Nat) (f : PortSt V → PortSt V)
    (h : i ≠ j) : getPort (updatePort st i f) j = getPort st j := by
  induction st generalizing i j with
  | nil => rfl
  | cons p ps ih =>
      cases i with
      | zero =>
          cases j with
          | zero => exact absurd rfl h
          | succ m => rfl
      | succ n =>
          cases j with
          | zero => rfl
          | succ m => exact ih n m (fun he => h (by rw [he]))

theorem setDirectionsOut_cons (st : Store V) (a : Nat) (rest : List Nat) :
    setDirectionsOut st (a :: rest) =
      setDirectionsOut (updatePort st a (fun q => { q with direction := PortDirection.pOut }))
        rest := rfl

theorem setDirectionsOut_length (st : Store V) (ps : List Nat) :
    (setDirectionsOut st ps).length = st.length := by
  induction ps generalizing st with
  | nil => rfl
  | cons a rest ih =>
      rw [setDirectionsOut_cons, ih, updatePort_length]

theorem getPort_setDirectionsOut_not_mem (st : Store V) (ps : List Nat) (p : Nat)
    (h : p ∉ ps) : getPort (setDirectionsOut st ps) p = getPort st p := by
  induction ps generalizing st with
  | nil => rfl
  | cons a rest ih =>
      rw [setDirectionsOut_cons, ih _ (fun hm => h (List.mem_cons_of_mem a hm)),
        getPort_updatePort_ne _ _ _ _
          (fun he => h (by rw [← he]; exact List.mem_cons_self a rest))]

theorem getPort_setDirectionsOut_mem (st : Store V) (ps : List Nat) (p : Nat)
    (hmem : p ∈ ps) (hlen : p < st.length) :
    (getPort (setDirectionsOut st ps) p).direction = PortDirection.pOut := by
  induction ps generalizing st with
  | nil => cases hmem
  | cons a rest ih =>
      by_cases hr : p ∈ rest
      · rw [setDirectionsOut_cons]
        exact ih _ hr (by rw [updatePort_length]; exact hlen)
      · rcases List.mem_cons.mp hmem with rfl | hr'
        · rw [setDirectionsOut_cons, getPort_setDirectionsOut_not_mem _ _ _ hr,
            getPort_updatePort_self _ _ _ hlen]
        · exact absurd hr' hr

/-! Claim theorems -/

/-- Claim C1: for every atomic simulator, `deltfcn` at current clock time `t`
applies the three-way DEVS rule: if all input ports are empty and
`t != time_next` it does nothing; if inputs are empty and `t == time_next`
it installs the result of `deltint`; if inputs are non-empty it sets
`e = t - time_last`, decrements `model.sigma` by `e`, and installs the
result of `deltcon(e)` when `t == time_next` (never `deltint` followed by
`deltext` — exactly one transition result is installed per case) and of
`deltext(e)` when `t != time_next`; in every non-no-op case it then sets
`time_last = t` and `time_next = t + model.ta` (where `model.ta` reads the
post-transition `sigma`). -/
theorem claim_C1_simulator_deltfcn_rule {S V : Type} (beh : Behavior S V)
    (clock : FTime) (st : Store V) (sm : Simulator S) :
    Simulator.deltfcn beh clock st sm =
      if inEmpty st sm.model then
        if FTime.beq clock sm.timeNext then
          (let r := beh.deltint sm.model.s sm.model.sigma
           { model := { sm.model with s := r.1, sigma := r.2 },
             timeLast := clock, timeNext := FTime.add clock r.2 })
        else sm
      else
        (let e := FTime.sub clock sm.timeLast
         let sigma1 := FTime.sub sm.model.sigma e
         let r := if FTime.beq clock sm.timeNext then
             beh.deltcon e (inputBuffers st sm.model) sm.model.s sigma1
           else
             beh.deltext e (inputBuffers st sm.model) sm.model.s sigma1
         { model := { sm.model with s := r.1, sigma := r.2 },
           timeLast := clock, timeNext := FTime.add clock r.2 }) := by
  by_cases h1 : inEmpty st sm.model
  · by_cases h2 : FTime.beq clock sm.timeNext
    · simp [Simulator.deltfcn, afterTransition, h1, h2]
    · simp [Simulator.deltfcn, afterTransition, h1, h2]
  · by_cases h2 : FTime.beq clock sm.timeNext
    · simp [Simulator.deltfcn, afterTransition, h1, h2]
    · simp [Simulator.deltfcn, afterTransition, h1, h2]

/-- Claim C2: for every coordinator, `inject(port, values, e)` computes
`time = time_last + e`; if `time <= time_next` or `time` is NaN it appends
the values to the port, sets `clock.time = time`, runs exactly one
micro-cycle (`lambdaf`; `deltfcn`; `clear`), sets `clock.time = time_next`
(as recomputed by `deltfcn`) and returns `true`; otherwise it returns
`false` and mutates no state.  In particular, with `time_last = 0` and
`time_next = 5`, `inject` with `e = 3` returns `true` and leaves the clock
at `5`, and `inject` with `e = 7` returns `false` and leaves the clock at
`5`. -/
theorem claim_C2_inject_bounds :
    (∀ (S V : Type) (beh : Behavior S V) (deser : V → V) (r : RootCoordinator S V)
        (p : Nat) (values : List V) (e : FTime),
      RootCoordinator.inject beh deser r (.byRef p) values e =
        (let time := FTime.add r.timeLast e
         if FTime.le time r.timeNext || !(FTime.beq time time) then
           let r1 := { r with store := extendValues r.store p values, clock := time }
           let r2 := RootCoordinator.clear
             (RootCoordinator.deltfcn beh (RootCoordinator.lambdaf beh r1))
           ({ r2 with clock := r2.timeNext }, true)
         else (r, false))) ∧
      injRootA.timeLast = FTime.fin 0 ∧ injRootA.timeNext = FTime.fin 5 ∧
      (RootCoordinator.inject passiveBeh id injRootA (.byRef 0) [1] (FTime.fin 3)).2 = true ∧
      (RootCoordinator.inject passiveBeh id injRootA (.byRef 0) [1] (FTime.fin 3)).1.clock =
        FTime.fin 5 ∧
      injRootB.timeLast = FTime.fin 0 ∧ injRootB.timeNext = FTime.fin 5 ∧
      RootCoordinator.inject passiveBeh id injRootB (.byRef 0) [1] (FTime.fin 7) =
        (injRootB, false) ∧
      injRootB.clock = FTime.fin 5 := by
  refine ⟨fun S V beh deser r p values e => rfl, rfl, rfl, ?_, ?_, rfl, rfl, ?_, rfl⟩
  · rfl
  · rfl
  · rfl

/-- Claim C3: after `deltfcn`, a simulator's `time_next` equals its
`time_last` plus its model's `ta` (= `sigma`), provided the equality held
before the call (it is established by every non-no-op branch and preserved
verbatim by the no-op branch, so it holds after every cycle); and a
coordinator's `time_next` equals the minimum of its children's (post-call)
`time_next` values, whenever the clock is an ordinary finite time and the
children exist and carry no NaN `time_next`. -/
theorem claim_C3_time_invariants :
    (∀ (S V : Type) (beh : Behavior S V) (clock : FTime) (st : Store V)
        (sm : Simulator S),
      sm.timeNext = FTime.add sm.timeLast sm.model.sigma →
      (Simulator.deltfcn beh clock st sm).timeNext =
        FTime.add (Simulator.deltfcn beh clock st sm).timeLast
          (Simulator.deltfcn beh clock st sm).model.sigma) ∧
    (∀ (S V : Type) (beh : Behavior S V) (q : Int) (st : Store V) (cs : CoordSt)
        (ch : ProcList S),
      (Proc.deltfcn beh (FTime.fin q) st (.coord cs ch)).2.childTimeNexts ≠ [] →
      (∀ x ∈ (Proc.deltfcn beh (FTime.fin q) st (.coord cs ch)).2.childTimeNexts,
        FTime.isNan x = false) →
      (Proc.deltfcn beh (FTime.fin q) st (.coord cs ch)).2.timeNext ∈
          (Proc.deltfcn beh (FTime.fin q) st (.coord cs ch)).2.childTimeNexts ∧
        ∀ x ∈ (Proc.deltfcn beh (FTime.fin q) st (.coord cs ch)).2.childTimeNexts,
          FTime.le (Proc.deltfcn beh (FTime.fin q) st (.coord cs ch)).2.timeNext x =
            true) := by
  constructor
  · intro S V beh clock st sm h
    by_cases h1 : inEmpty st sm.model
    · by_cases h2 : FTime.beq clock sm.timeNext
      · simp [Simulator.deltfcn, afterTransition, h1, h2]
      · simpa [Simulator.deltfcn, afterTransition, h1, h2] using h
    · by_cases h2 : FTime.beq clock sm.timeNext
      · simp [Simulator.deltfcn, afterTransition, h1, h2]
      · simp [Simulator.deltfcn, afterTransition, h1, h2]
  · intro S V beh q st cs ch
    simp only [Proc.deltfcn, Proc.childTimeNexts, Proc.timeNext, coordinatorTa]
    intro hne hnan
    have hmin := pymin_mem hne (FTime.fin 0)
    have hnn := pymin_not_nan hne hnan (FTime.fin 0)
    rw [FTime.add_sub_cancel' hnn]
    exact ⟨hmin, pymin_le hne hnan (FTime.fin 0)⟩

/-- Witness for C3: a simulator with `time_next = time_last + sigma`
(`3 = 1 + 2`) keeps the equality through `deltfcn`, and a coordinator over
one imminent periodic atomic gets `time_next = 2`, the minimum (and only)
child `time_next`. -/
theorem claim_C3_witness :
    ((Simulator.deltfcn (V := Nat) passiveBeh (FTime.fin 3) [] invSim).timeNext =
      FTime.add (Simulator.deltfcn (V := Nat) passiveBeh (FTime.fin 3) [] invSim).timeLast
        (Simulator.deltfcn (V := Nat) passiveBeh (FTime.fin 3) [] invSim).model.sigma) ∧
    ((Proc.deltfcn periodicBeh (FTime.fin 1) ([] : Store Nat)
        (.coord { model := trivialCoupled, timeLast := FTime.fin 0,
                  timeNext := FTime.fin 1, portsToServe := [] }
          (ProcList.cons
            (Proc.sim { model := { s := (), sigma := FTime.fin 1, inPorts := [],
                                   outPorts := [] },
                        timeLast := FTime.fin 0, timeNext := FTime.fin 1 })
            ProcList.nil))).2.timeNext ∈
      (Proc.deltfcn periodicBeh (FTime.fin 1) ([] : Store Nat)
        (.coord { model := trivialCoupled, timeLast := FTime.fin 0,
                  timeNext := FTime.fin 1, portsToServe := [] }
          (ProcList.cons
            (Proc.sim { model := { s := (), sigma := FTime.fin 1, inPorts := [],
                                   outPorts := [] },
                        timeLast := FTime.fin 0, timeNext := FTime.fin 1 })
            ProcList.nil))).2.childTimeNexts) := by
  constructor
  · exact claim_C3_time_invariants.1 Unit Nat passiveBeh (FTime.fin 3) [] invSim (by decide)
  · exact (claim_C3_time_invariants.2 Unit Nat periodicBeh 1 [] _ _ (by decide)
      (by decide)).1

/-- Claim C4, counterexample: the claim "for a coordinator with no child
processors, `ta()` returns `0`" is false: with the clock at `3` and no
children, `ta()` computes `min([], default=0) - clock.time = 0 - 3 = -3`,
not `0`. -/
theorem claim_C4_counterexample :
    coordinatorTa (S := Unit) (FTime.fin 3) ProcList.nil = FTime.fin (-3) ∧
      FTime.fin (-3) ≠ FTime.fin 0 := by
  exact ⟨rfl, by decide⟩

/-- Claim C4, amended: for every coordinator, `ta()` returns the minimum over
child processors of `child.time_next`, minus `clock.time` (whenever children
exist and no child `time_next` is NaN, the folded Python `min` is a genuine
minimum: a member of the list that is `<=` every member); for a coordinator
with no child processors, `ta()` returns `0 - clock.time` (which is `0` only
when the clock is at `0`). -/
theorem claim_C4_amended :
    (∀ (S : Type) (clock : FTime) (children : ProcList S),
      children.timeNexts ≠ [] →
      (∀ x ∈ children.timeNexts, FTime.isNan x = false) →
      coordinatorTa clock children =
          FTime.sub (pymin children.timeNexts (FTime.fin 0)) clock ∧
        pymin children.timeNexts (FTime.fin 0) ∈ children.timeNexts ∧
        ∀ x ∈ children.timeNexts,
          FTime.le (pymin children.timeNexts (FTime.fin 0)) x = true) ∧
    (∀ (S : Type) (clock : FTime),
      coordinatorTa (S := S) clock ProcList.nil = FTime.sub (FTime.fin 0) clock) := by
  constructor
  · intro S clock children hne hnan
    exact ⟨rfl, pymin_mem hne (FTime.fin 0), pymin_le hne hnan (FTime.fin 0)⟩
  · intro S clock
    rfl

/-- Witness for the amended C4: a coordinator with children whose
`time_next`s are `[4, 2]` has `ta() = min([4,2],default=0) - 3` at clock
`3`, with the folded minimum equal to `2`; without children
`ta() = 0 - 3`. -/
theorem claim_C4_witness :
    coordinatorTa (FTime.fin 3) twoKids =
        FTime.sub (pymin twoKids.timeNexts (FTime.fin 0)) (FTime.fin 3) ∧
      pymin twoKids.timeNexts (FTime.fin 0) = FTime.fin 2 ∧
      coordinatorTa (S := Unit) (FTime.fin 3) ProcList.nil =
        FTime.sub (FTime.fin 0) (FTime.fin 3) := by
  refine ⟨(claim_C4_amended.1 Unit (FTime.fin 3) twoKids (by decide) (by decide)).1,
    rfl, claim_C4_amended.2 Unit (FTime.fin 3)⟩

/-- Claim C5: for every root coordinator and every `n`, `simulate(n)` first
sets `clock.time = time_next`, then performs at most `n` cycles, each
consisting of `lambdaf`, `deltfcn`, `clear` and `clock.time = time_next`,
stopping as soon as `clock.time` is no longer strictly below `INFINITY`:
the loop is characterized by its two unfolding equations. -/
theorem claim_C5_simulate_loop :
    ∀ (S V : Type) (beh : Behavior S V) (r : RootCoordinator S V) (n : Nat),
      RootCoordinator.simulate beh r n =
        simulateAux beh n { r with clock := r.timeNext } ∧
      simulateAux beh 0 r = r ∧
      simulateAux beh (n + 1) r =
        (if FTime.lt r.clock INFINITY then
          simulateAux beh n
            (let r1 := RootCoordinator.clear
              (RootCoordinator.deltfcn beh (RootCoordinator.lambdaf beh r))
             { r1 with clock := r1.timeNext })
        else r) := by
  intro S V beh r n
  exact ⟨rfl, rfl, rfl⟩

/-- Claim C6, divergence: `ParallelCoordinator.deltfcn` waits on the
always-empty `ex_futures` list, so a legal thread-pool schedule runs the
submitted child `deltfcn` tasks only after the coordinator recomputes its
times.  On a root with one imminent periodic atomic (`sigma = 1`, clock at
`time_next = 1`), the sequential coordinator computes `time_next = 2` but
the parallel coordinator under that schedule computes `time_next = 1` from
the stale child `time_next` — even though the child simulators themselves
end in the same state in both runs. -/
theorem claim_C6_parallel_divergence :
    (RootCoordinator.deltfcn periodicBeh tickRoot).timeNext = FTime.fin 2 ∧
      (RootCoordinator.parallelDeltfcnDeferred periodicBeh tickRootPar).timeNext =
        FTime.fin 1 ∧
      (RootCoordinator.parallelDeltfcnDeferred periodicBeh tickRootPar).timeNext ≠
        (RootCoordinator.deltfcn periodicBeh tickRoot).timeNext ∧
      (RootCoordinator.parallelDeltfcnDeferred periodicBeh tickRootPar).children =
        (RootCoordinator.deltfcn periodicBeh tickRoot).children := by
  exact ⟨rfl, rfl, by decide, rfl⟩

/-- Claim C7: for every coordinator built in chain mode, every input port of
the (transformed) root model has its direction set to OUT at construction,
and `propagate_output` / `propagate_input` are the identity on the port
store: no EIC, IC or EOC coupling is applied, so no port buffer receives
values through coupling propagation. -/
theorem claim_C7_chain_mode :
    ∀ (S V : Type) (flattenImpl rewire : Coupled → Coupled) (m : Coupled)
      (flatten : Bool) (clock : FTime) (st : Store V),
      (∀ p ∈ (coordinatorInit (S := S) flattenImpl rewire m flatten true clock
          st).model.inPorts,
        p < st.length →
        (getPort
            (coordinatorInit (S := S) flattenImpl rewire m flatten true clock st).store
            p).direction = PortDirection.pOut) ∧
      (∀ st' : Store V,
        propagateOutput st'
            (coordinatorInit (S := S) flattenImpl rewire m flatten true clock st).model =
          st') ∧
      (∀ st' : Store V,
        propagateInput st'
            (coordinatorInit (S := S) flattenImpl rewire m flatten true clock st).model =
          st') := by
  intro S V flattenImpl rewire m flatten clock st
  refine ⟨?_, ?_, ?_⟩
  · intro p hmem hlen
    simp only [coordinatorInit, if_pos rfl] at hmem ⊢
    exact getPort_setDirectionsOut_mem st _ p hmem hlen
  · intro st'
    simp [coordinatorInit, propagateOutput, toChainSpec]
  · intro st'
    simp [coordinatorInit, propagateInput, toChainSpec]

/-- Witness for C7: building over `chainCoupled` (which has one coupling of
each kind and a non-empty source buffer at port `4`) in chain mode sets the
directions of input ports `0` and `1` to OUT, and neither propagation
changes the store. -/
theorem claim_C7_witness :
    (getPort (coordinatorInit (S := Unit) id id chainCoupled false true (FTime.fin 0)
        chainStore).store 0).direction = PortDirection.pOut ∧
      (getPort (coordinatorInit (S := Unit) id id chainCoupled false true (FTime.fin 0)
          chainStore).store 1).direction = PortDirection.pOut ∧
      propagateOutput chainStore
          (coordinatorInit (S := Unit) id id chainCoupled false true (FTime.fin 0)
            chainStore).model =
        chainStore ∧
      propagateInput chainStore
          (coordinatorInit (S := Unit) id id chainCoupled false true (FTime.fin 0)
            chainStore).model =
        chainStore := by
  have h := claim_C7_chain_mode Unit Nat id id chainCoupled false (FTime.fin 0) chainStore
  exact ⟨h.1 0 (by decide) (by decide), h.1 1 (by decide) (by decide),
    h.2.1 chainStore, h.2.2 chainStore⟩

/-- Claim C8: for every coordinator, calling `inject` with a string port name
that is not a key of `ports_to_serve` logs an error and returns `true`,
leaving every port buffer, the clock, `time_last` and `time_next` unchanged
(the whole root state is returned untouched). -/
theorem claim_C8_unknown_port_name :
    ∀ (S V : Type) (beh : Behavior S V) (deser : V → V) (r : RootCoordinator S V)
      (name : String) (values : List V) (e : FTime),
      findPort r.portsToServe name = none →
      RootCoordinator.inject beh deser r (.byName name) values e = (r, true) := by
  intro S V beh deser r name values e h
  simp [RootCoordinator.inject, h]

/-- Witness for C8: injecting by the unregistered name `"m.p"` into a root
with an empty `ports_to_serve` returns `true` and the unchanged root. -/
theorem claim_C8_witness :
    RootCoordinator.inject passiveBeh id serveRoot (.byName "m.p") [1] (FTime.fin 1) =
      (serveRoot, true) :=
  claim_C8_unknown_port_name Unit Nat passiveBeh id serveRoot "m.p" [1] (FTime.fin 1) rfl

/-- Claim C9: for every coupled model and every argument combination,
constructing a `ParallelProcessCoordinator` fails with a `TypeError`: its
`__init__` forwards `unroll` as a fifth positional argument to
`Coordinator.__init__`, which accepts only `model`, `clock`, `flatten` and
`chain` (four positional arguments). -/
theorem claim_C9_ppc_init_type_error :
    ∀ (m : Coupled) (clock : Option FTime) (flatten chain unroll master : Bool),
      parallelProcessCoordinatorInit m clock flatten chain unroll master =
        InitOutcome.typeError := by
  intro m clock flatten chain unroll master
  rfl

/-- Claim C10: for every coordinator state satisfying
`time_last <= time_next`, `inject` called with a `Port` object and the
default elapsed offset `e = 0` always takes the acceptance branch (the
micro-cycle runs and `true` is returned): the rejection branch returning
`false` is unreachable, because `time = time_last + 0 <= time_next`. -/
theorem claim_C10_default_inject_accepted :
    ∀ (S V : Type) (beh : Behavior S V) (deser : V → V) (r : RootCoordinator S V)
      (p : Nat) (values : List V),
      FTime.le r.timeLast r.timeNext = true →
      RootCoordinator.inject beh deser r (.byRef p) values (FTime.fin 0) =
        (let r1 := { r with store := extendValues r.store p values,
                            clock := FTime.add r.timeLast (FTime.fin 0) }
         let r2 := RootCoordinator.clear
           (RootCoordinator.deltfcn beh (RootCoordinator.lambdaf beh r1))
         ({ r2 with clock := r2.timeNext }, true)) := by
  intro S V beh deser r p values h
  have hz : FTime.add r.timeLast (FTime.fin 0) = r.timeLast :=
    FTime.add_fin_zero (FTime.not_nan_of_le_left h)
  simp only [RootCoordinator.inject, hz, h, Bool.true_or, if_true]

/-- Witness for C10: a root with `time_last = 2 <= 4 = time_next` accepts a
default-offset direct injection; the returned flag is `true`. -/
theorem claim_C10_witness :
    (RootCoordinator.inject passiveBeh id defaultInjRoot (.byRef 0) [9]
      (FTime.fin 0)).2 = true := by
  rw [claim_C10_default_inject_accepted Unit Nat passiveBeh id defaultInjRoot 0 [9] rfl]
